import Mathlib

/-!
Verification of the shapefile ingestion pipeline of `src/app.py`, a Flask
application backed by PostGIS.

The development shallowly embeds the two upload paths of the source:

* `upload_shapefile` (route `/upload`) together with `process_shapefile_upload`,
  and
* `api_upload` (route `/api/upload`) together with `_derive_table_name` and
  `_ingest_zip_to_postgis`.

Python strings are embedded as lists of characters; `str.lower`,
`str.isalnum`, `str.isdigit`, `str.isalpha` and `str.strip` are embedded by
the corresponding ASCII `Char` operations of Lean core (the embedding is
therefore faithful on ASCII data, which is the domain of every concrete
input considered here).  Calls into external collaborators (Flask, zipfile,
geopandas, the database driver) are embedded at their interface: the
expanded archive is a list of entries, the parsed shapefile is a
`FeatureSet` record, reprojection success and the bulk-copy capability of
the driver are oracle fields, and the effect of a write is a `WrittenTable`
record describing the persisted table as observable through
`information_schema`.
-/

namespace ShapefilePipeline

/-- Python strings, embedded as their character lists. -/
abbrev Str := List Char

/-- Embedding of Python `str.lower()` (ASCII fragment). -/
def pyLower (s : Str) : Str := s.map Char.toLower

/-- Embedding of Python `str.strip()`: drop whitespace from both ends. -/
def pyStrip (s : Str) : Str :=
  ((s.dropWhile Char.isWhitespace).reverse.dropWhile Char.isWhitespace).reverse

/-- Embedding of Python `s.endswith(suf)`. -/
def strEndsWith (s suf : Str) : Bool := suf.isSuffixOf s

/-- Index of the last `'.'` of a filename, if any (helper for
`os.path.splitext`). -/
def lastDotIdx (s : Str) : Option Nat :=
  match s.reverse.findIdx? (fun c => c = '.') with
  | none => none
  | some k => some (s.length - 1 - k)

/-- Base part of `os.path.splitext`: everything before the last dot, except
that a name whose characters before that dot are all dots (such as
`".bashrc"`) is returned whole. -/
def splitextBase (s : Str) : Str :=
  match lastDotIdx s with
  | none => s
  | some i => if (s.take i).any (fun c => c ≠ '.') then s.take i else s

/-! ### Decimal numerals

The uniqueness probe of `process_shapefile_upload` builds candidate table
names with the f-string `f"{table_name}_{suffix}"`, i.e. with the decimal
numeral of the suffix.  The corresponding Lean printer is `Nat.repr`; the
lemmas below establish the facts about it that the probe proofs need, chiefly
injectivity. -/

/-- Decimal digit list of a natural number, most significant digit first.
`Nat.repr` produces exactly this list (`repr_data_eq_decRepr`). -/
def decRepr (n : Nat) : List Char :=
  if _h : n < 10 then [Nat.digitChar n]
  else decRepr (n / 10) ++ [Nat.digitChar (n % 10)]
decreasing_by exact Nat.div_lt_self (by omega) (by omega)

/-- Numeric value of a decimal digit character. -/
def digitVal (c : Char) : Nat := c.toNat - 48

/-- Value of a digit string, most significant digit first. -/
def reprVal : List Char → Nat
  | [] => 0
  | c :: cs => digitVal c * 10 ^ cs.length + reprVal cs

theorem digitVal_digitChar {d : Nat} (h : d < 10) : digitVal (Nat.digitChar d) = d := by
  interval_cases d <;> decide

theorem reprVal_append_singleton (xs : List Char) (c : Char) :
    reprVal (xs ++ [c]) = 10 * reprVal xs + digitVal c := by
  induction xs with
  | nil => simp [reprVal]
  | cons x xs ih =>
    have hc : (x :: xs) ++ [c] = x :: (xs ++ [c]) := rfl
    rw [hc]
    show digitVal x * 10 ^ (xs ++ [c]).length + reprVal (xs ++ [c]) =
      10 * (digitVal x * 10 ^ xs.length + reprVal xs) + digitVal c
    rw [ih, List.length_append]
    simp only [List.length_cons, List.length_nil, pow_succ]
    ring

theorem reprVal_decRepr (n : Nat) : reprVal (decRepr n) = n := by
  induction n using Nat.strong_induction_on with
  | _ n ih =>
    by_cases h : n < 10
    · rw [decRepr, dif_pos h]
      simp [reprVal, digitVal_digitChar h]
    · rw [decRepr, dif_neg h, reprVal_append_singleton,
        ih (n / 10) (Nat.div_lt_self (by omega) (by omega)),
        digitVal_digitChar (Nat.mod_lt n (by omega))]
      omega

theorem decRepr_injective {a b : Nat} (h : decRepr a = decRepr b) : a = b := by
  have ha := reprVal_decRepr a
  rw [h, reprVal_decRepr] at ha
  omega

theorem toDigitsCore_eq_decRepr (fuel : Nat) :
    ∀ (n : Nat) (ds : List Char), n < fuel →
      Nat.toDigitsCore 10 fuel n ds = decRepr n ++ ds := by
  induction fuel with
  | zero => intro n ds h; omega
  | succ fuel ih =>
    intro n ds h
    simp only [Nat.toDigitsCore]
    by_cases h10 : n / 10 = 0
    · have hn : n < 10 := by omega
      rw [if_pos h10]
      conv_rhs => rw [decRepr]
      rw [dif_pos hn, Nat.mod_eq_of_lt hn]
      rfl
    · have hn : ¬ n < 10 := by omega
      rw [if_neg h10, ih (n / 10) _ (by omega)]
      conv_rhs => rw [decRepr]
      rw [dif_neg hn, List.append_assoc]
      rfl

theorem repr_data_eq_decRepr (n : Nat) : (Nat.repr n).data = decRepr n := by
  show ((Nat.toDigits 10 n).asString).data = decRepr n
  rw [Nat.toDigits, toDigitsCore_eq_decRepr (n + 1) n [] (by omega), List.append_nil]
  rfl

theorem repr_data_injective {a b : Nat} (h : (Nat.repr a).data = (Nat.repr b).data) :
    a = b := by
  apply decRepr_injective
  rw [← repr_data_eq_decRepr, ← repr_data_eq_decRepr, h]

/-! ### ASCII character facts used by the sanitizers -/

theorem uint32_le_iff {a b : UInt32} : a ≤ b ↔ a.toNat ≤ b.toNat := Iff.rfl

theorem char_isDigit_iff {c : Char} : c.isDigit = true ↔ 48 ≤ c.toNat ∧ c.toNat ≤ 57 := by
  simp [Char.isDigit, uint32_le_iff, Char.toNat, UInt32.size]

theorem char_isUpper_iff {c : Char} : c.isUpper = true ↔ 65 ≤ c.toNat ∧ c.toNat ≤ 90 := by
  simp [Char.isUpper, uint32_le_iff, Char.toNat, UInt32.size]

theorem char_isLower_iff {c : Char} : c.isLower = true ↔ 97 ≤ c.toNat ∧ c.toNat ≤ 122 := by
  simp [Char.isLower, uint32_le_iff, Char.toNat, UInt32.size]

theorem char_isAlpha_not_isDigit {c : Char} (h : c.isAlpha = true) : c.isDigit = false := by
  rw [Bool.eq_false_iff]
  intro hd
  have hd' := char_isDigit_iff.mp hd
  rcases Bool.or_eq_true_iff.mp (by simpa [Char.isAlpha] using h) with h' | h'
  · have := char_isUpper_iff.mp h'
    omega
  · have := char_isLower_iff.mp h'
    omega

theorem char_toNat_ofNat_valid {n : Nat} (h : n.isValidChar) : (Char.ofNat n).toNat = n := by
  rw [Char.ofNat, dif_pos h]
  rfl

theorem char_toLower_isDigit (c : Char) : (Char.toLower c).isDigit = c.isDigit := by
  rw [Char.toLower]
  split
  · rename_i h
    have hv : (Char.toNat c + 32).isValidChar := Or.inl (by omega)
    have h1 : (Char.ofNat (Char.toNat c + 32)).toNat = Char.toNat c + 32 :=
      char_toNat_ofNat_valid hv
    have hd1 : (Char.ofNat (Char.toNat c + 32)).isDigit = false := by
      rw [Bool.eq_false_iff]
      intro hcon
      have := char_isDigit_iff.mp hcon
      omega
    have hd2 : c.isDigit = false := by
      rw [Bool.eq_false_iff]
      intro hcon
      have := char_isDigit_iff.mp hcon
      omega
    rw [hd1, hd2]
  · rfl

/-! ### Table-name sanitization -/

/-- Per-character rule of `sanitize_name` in `process_shapefile_upload`:
`c if c.isalnum() else '_'`. -/
def sanitizeChar (c : Char) : Char := if c.isAlphanum then c else '_'

/-- The local `cleaned` of `sanitize_name`:
`''.join(c if c.isalnum() else '_' for c in name.lower())`. -/
def cleanedOf (name : Str) : Str := (pyLower name).map sanitizeChar

/-- `sanitize_name` from `process_shapefile_upload` (src/app.py):
lowercase the name, replace every non-alphanumeric character by `'_'`, and
prepend `"table_"` when the first character of the cleaned string is not a
letter; the empty string sanitizes to the empty string. -/
def sanitize_name (name : Str) : Str :=
  match cleanedOf name with
  | [] => []
  | c :: rest => if c.isAlpha then c :: rest else "table_".data ++ (c :: rest)

/-- Per-character rule of `_derive_table_name` (src/app.py):
`c if (c.isalnum() or c == '_') else '_'`. -/
def deriveChar (c : Char) : Char := if c.isAlphanum || c = '_' then c else '_'

/-- Base string chosen by `_derive_table_name`:
`(preferred or os.path.splitext(original_filename)[0]).strip()` — the
user-supplied name when non-empty, else the uploaded filename without its
extension, stripped either way. -/
def apiBase (preferred original : Str) : Str :=
  pyStrip (if preferred = [] then splitextBase original else preferred)

/-- The local `safe` of `_derive_table_name`:
`''.join(c if (c.isalnum() or c == '_') else '_' for c in base)`. -/
def apiSafe (preferred original : Str) : Str :=
  (apiBase preferred original).map deriveChar

/-- The value of `safe` after the digit-prefix fixup of
`_derive_table_name`: `if safe and safe[0].isdigit(): safe = f"t_{safe}"`. -/
def apiSafe2 (preferred original : Str) : Str :=
  match apiSafe preferred original with
  | [] => ([] : Str)
  | c :: rest => if c.isDigit then "t_".data ++ (c :: rest) else c :: rest

/-- `_derive_table_name(preferred, original_filename)` from src/app.py:
`return safe.lower() or f"t_{uuid.uuid4().hex[:8]}"`.  The fresh
`uuid.uuid4().hex[:8]` token used when sanitization yields the empty string
is passed explicitly as `uuidTok`. -/
def _derive_table_name (preferred original uuidTok : Str) : Str :=
  let lowered := pyLower (apiSafe2 preferred original)
  if lowered = [] then "t_".data ++ uuidTok else lowered

/-- Table-name base computed inside `process_shapefile_upload` before the
uniqueness probe: the (handler-stripped) desired name sanitized when
non-empty, else the located `.shp` entry's base filename sanitized; if that
still yields the empty string, `"table_"` plus a fragment of the upload id.
Note the fallback uses the shapefile entry's name, not the uploaded
archive's filename. -/
def processTableBase (desired shpFile uploadTok : Str) : Str :=
  let preferred := if desired = [] then [] else sanitize_name desired
  let t := if preferred = [] then sanitize_name (splitextBase shpFile) else preferred
  if t = [] then "table_".data ++ uploadTok else t

/-! ### The uniqueness probe -/

/-- The k-th candidate probed by the uniqueness loop of
`process_shapefile_upload`: the base itself, then `base_1`, `base_2`, …
(`f"{table_name}_{suffix}"`). -/
def candidateAt (base : Str) : Nat → Str
  | 0 => base
  | k + 1 => base ++ '_' :: (Nat.repr (k + 1)).data

/-- The `while candidate in existing_names` loop, fuelled; `uniqueName`
supplies enough fuel for the loop to always exit through its guard
(`uniqueName_not_mem`). -/
def probeFrom (base : Str) (existing : List Str) : Nat → Nat → Str
  | 0, k => candidateAt base k
  | fuel + 1, k =>
      if candidateAt base k ∈ existing then probeFrom base existing fuel (k + 1)
      else candidateAt base k

/-- The uniqueness probe of `process_shapefile_upload`: starting from the
sanitized base, return the first of `base`, `base_1`, `base_2`, … that is
not among the existing table names of the schema snapshot. -/
def uniqueName (base : Str) (existing : List Str) : Str :=
  probeFrom base existing (existing.length + 1) 0

theorem candidateAt_succ_injective {base : Str} {a b : Nat}
    (h : candidateAt base (a + 1) = candidateAt base (b + 1)) : a = b := by
  simp only [candidateAt] at h
  have h2 := List.append_cancel_left h
  have h3 : (Nat.repr (a + 1)).data = (Nat.repr (b + 1)).data := by
    injection h2
  have := repr_data_injective h3
  omega

/-- If the fuelled probe returns an element of `existing`, every candidate it
inspected (and the one it stopped on) is in `existing`. -/
theorem probeFrom_mem_of_mem (base : Str) (existing : List Str) :
    ∀ (fuel i : Nat), probeFrom base existing fuel i ∈ existing →
      ∀ k ≤ fuel, candidateAt base (i + k) ∈ existing := by
  intro fuel
  induction fuel with
  | zero =>
    intro i h k hk
    interval_cases k
    simpa [probeFrom] using h
  | succ fuel ih =>
    intro i h k hk
    by_cases hmem : candidateAt base i ∈ existing
    · rcases Nat.eq_zero_or_pos k with rfl | hkpos
      · simpa using hmem
      · have h' : probeFrom base existing fuel (i + 1) ∈ existing := by
          simpa [probeFrom, hmem] using h
        have := ih (i + 1) h' (k - 1) (by omega)
        have heq : i + 1 + (k - 1) = i + k := by omega
        rwa [heq] at this
    · exfalso
      apply hmem
      simp only [probeFrom, if_neg hmem] at h
      exact h

/-- The name returned by the uniqueness probe is never one of the existing
names: among the `existing.length + 1` distinct candidates inspected with the
fuel chosen in `uniqueName`, at least one lies outside `existing`. -/
theorem uniqueName_not_mem (base : Str) (existing : List Str) :
    uniqueName base existing ∉ existing := by
  intro hmem
  have hall := probeFrom_mem_of_mem base existing (existing.length + 1) 0 hmem
  -- every candidate with index 1 .. existing.length + 1 is in `existing`
  set L := (List.range (existing.length + 1)).map (fun j => candidateAt base (j + 1)) with hL
  have hnodup : L.Nodup := by
    rw [hL]
    refine List.Nodup.map_on ?_ (List.nodup_range _)
    intro a _ b _ hab
    have := candidateAt_succ_injective hab
    omega
  have hsub : L ⊆ existing := by
    intro x hx
    rw [hL] at hx
    rcases List.mem_map.mp hx with ⟨j, hj, rfl⟩
    have hj' : j + 1 ≤ existing.length + 1 := by
      have := List.mem_range.mp hj
      omega
    have := hall (j + 1) hj'
    rwa [Nat.zero_add] at this
  have hlen : L.length = existing.length + 1 := by
    rw [hL, List.length_map, List.length_range]
  have hcard1 : L.toFinset.card = L.length := List.toFinset_card_of_nodup hnodup
  have hcard2 : L.toFinset ⊆ existing.toFinset := by
    intro x hx
    exact List.mem_toFinset.mpr (hsub (List.mem_toFinset.mp hx))
  have hcard3 : existing.toFinset.card ≤ existing.length := existing.toFinset_card_le
  have := Finset.card_le_card hcard2
  omega

/-- The probe's result is the first free candidate: there is an index `k`
with every earlier candidate in `existing`, the k-th candidate free, and the
result equal to that candidate. -/
theorem probeFrom_first_free (base : Str) (existing : List Str) :
    ∀ (fuel i : Nat), probeFrom base existing fuel i ∉ existing →
      ∃ k, i ≤ k ∧ probeFrom base existing fuel i = candidateAt base k ∧
        candidateAt base k ∉ existing ∧
        ∀ j, i ≤ j → j < k → candidateAt base j ∈ existing := by
  intro fuel
  induction fuel with
  | zero =>
    intro i h
    exact ⟨i, le_refl i, rfl, by simpa [probeFrom] using h, fun j h1 h2 => absurd h1 (by omega)⟩
  | succ fuel ih =>
    intro i h
    by_cases hmem : candidateAt base i ∈ existing
    · have hstep : probeFrom base existing (fuel + 1) i = probeFrom base existing fuel (i + 1) := by
        simp [probeFrom, hmem]
      rw [hstep] at h ⊢
      rcases ih (i + 1) h with ⟨k, hk1, hk2, hk3, hk4⟩
      refine ⟨k, by omega, hk2, hk3, ?_⟩
      intro j hj1 hj2
      rcases Nat.eq_or_lt_of_le hj1 with rfl | hj3
      · exact hmem
      · exact hk4 j (by omega) hj2
    · have hstep : probeFrom base existing (fuel + 1) i = candidateAt base i := by
        simp [probeFrom, hmem]
      rw [hstep]
      exact ⟨i, le_refl i, rfl, hmem, fun j h1 h2 => absurd h1 (by omega)⟩

/-- `uniqueName` probes `base`, `base_1`, `base_2`, … in order and returns
the first candidate outside the snapshot. -/
theorem uniqueName_first_free (base : Str) (existing : List Str) :
    ∃ k, uniqueName base existing = candidateAt base k ∧
      candidateAt base k ∉ existing ∧
      ∀ j, j < k → candidateAt base j ∈ existing := by
  have h := probeFrom_first_free base existing (existing.length + 1) 0
    (uniqueName_not_mem base existing)
  rcases h with ⟨k, _, h2, h3, h4⟩
  exact ⟨k, h2, h3, fun j hj => h4 j (by omega) hj⟩

/-! ### The expanded archive and the two locate stages -/

/-- One file inside the expanded archive scratch directory: the directory
components below the scratch root and the file name. -/
structure ArchiveEntry where
  dirs : List Str
  name : Str
deriving DecidableEq

/-- The `/upload` locator's candidate list:
`[f for f in os.listdir(temp_dir) if f.endswith('.shp')]` — only entries at
the top level of the expanded archive, matched case-sensitively. -/
def topLevelShps (entries : List ArchiveEntry) : List ArchiveEntry :=
  entries.filter (fun e => e.dirs.isEmpty && strEndsWith e.name ".shp".data)

/-- Failure modes of the `/upload` locate stage. -/
inductive LocateErr
  | noShapefile
  | multipleShapefiles
deriving DecidableEq

/-- Locate stage of `process_shapefile_upload`: zero top-level `.shp`
entries fail `NoShapefile`, two or more fail `MultipleShapefiles`, exactly
one is returned. -/
def locateProcess (entries : List ArchiveEntry) : Except LocateErr ArchiveEntry :=
  match topLevelShps entries with
  | [] => .error .noShapefile
  | [e] => .ok e
  | _ :: _ :: _ => .error .multipleShapefiles

/-- Locate step of `_ingest_zip_to_postgis`: walk the expanded archive in
order (`os.walk`) and take the first file whose lowercased name ends in
`".shp"`; `none` embeds `raise ValueError('No .shp found inside the ZIP')`. -/
def locateApi (entries : List ArchiveEntry) : Option ArchiveEntry :=
  entries.find? (fun e => strEndsWith (pyLower e.name) ".shp".data)

/-! ### FeatureSet and CRS normalization -/

/-- The in-memory feature table returned by `gpd.read_file` for the located
shapefile, as the pipeline observes it: attribute column names, attribute
rows, geometry values (represented by their canonical WKT), the geometry
column's name, the declared EPSG code (`none` embeds `gdf.crs is None`), and
an oracle recording whether the library's reprojection of this data to
EPSG:4326 would succeed (`gdf.to_crs(4326)` raising is external behavior). -/
structure FeatureSet where
  attrCols : List Str
  attrRows : List (List Str)
  geoms : List Str
  geomName : Str
  crs : Option Nat
  reprojOk : Bool
deriving DecidableEq

/-- Number of rows, `len(gdf)`. -/
def FeatureSet.rowCount (fs : FeatureSet) : Nat := fs.geoms.length

/-- CRS handling of `_ingest_zip_to_postgis`: a missing CRS is set to
EPSG:4326 (`gdf.set_crs(epsg=4326, inplace=True)`); a declared CRS is
reprojected to 4326 inside `try: … except: pass`, so a reprojection failure
leaves the data unchanged. -/
def normalizeApi (fs : FeatureSet) : FeatureSet :=
  match fs.crs with
  | none => { fs with crs := some 4326 }
  | some _ => if fs.reprojOk then { fs with crs := some 4326 } else fs

/-- CRS handling of `process_shapefile_upload`: a missing CRS is only
warned about (`print("[WARN] … attempting import as-is")`) and left unset;
a declared CRS other than 4326 is reprojected, with failures warned about
and ignored (`except Exception as crs_err`). -/
def normalizeProcess (fs : FeatureSet) : FeatureSet :=
  match fs.crs with
  | none => fs
  | some c =>
      if c = 4326 then fs
      else if fs.reprojOk then { fs with crs := some 4326 } else fs

/-! ### The two write paths -/

/-- A persisted spatial table as observable through `information_schema`:
its name, attribute columns and rows, the geometry column's name, the SRID
stamped on the geometry column, and the stored geometries (by WKT). -/
structure WrittenTable where
  name : Str
  attrCols : List Str
  attrRows : List (List Str)
  geomCol : Str
  geomSRID : Option Nat
  geomsWKT : List Str
deriving DecidableEq

/-- Primary write path `gdf.to_postgis(name, con, if_exists='replace',
index=False)`: the FeatureSet's columns and rows are bulk-loaded as they
are; the geometry column keeps its FeatureSet name and is tagged with the
FeatureSet's CRS. -/
def writePrimary (fs : FeatureSet) (tname : Str) : WrittenTable :=
  { name := tname
    attrCols := fs.attrCols
    attrRows := fs.attrRows
    geomCol := fs.geomName
    geomSRID := fs.crs
    geomsWKT := fs.geoms }

/-- The staging table of the WKT fallback
(`df.to_sql(tmp_table, …)`): the attribute columns plus the
`__geometry_wkt` text column, each row extended with its geometry's WKT. -/
structure StagingTable where
  name : Str
  cols : List Str
  rows : List (List Str)
deriving DecidableEq

/-- Build the staging table `f"{table_name}__wkt_tmp"` of the fallback:
`df = gdf.drop(columns=['geometry']); df['__geometry_wkt'] = gdf.geometry.to_wkt()`. -/
def stageWkt (fs : FeatureSet) (tname : Str) : StagingTable :=
  { name := tname ++ "__wkt_tmp".data
    cols := fs.attrCols ++ ["__geometry_wkt".data]
    rows := List.zipWith (fun r w => r ++ [w]) fs.attrRows fs.geoms }

/-- The `CREATE TABLE … AS SELECT` of the fallback: every staging column but
the WKT helper, plus `ST_GeomFromText(__geometry_wkt, 4326)::geometry AS
geometry` — the last column is converted back into a typed geometry column
stamped with SRID 4326. -/
def ctasFromStaging (st : StagingTable) (tname : Str) : WrittenTable :=
  { name := tname
    attrCols := st.cols.dropLast
    attrRows := st.rows.map List.dropLast
    geomCol := "geometry".data
    geomSRID := some 4326
    geomsWKT := st.rows.map (fun r => r.getLastD []) }

/-- The whole fallback write path (taken when the driver lacks
`copy_expert`): stage the attributes plus WKT, convert via
`CREATE TABLE AS SELECT`, then drop the staging table. -/
def writeFallback (fs : FeatureSet) (tname : Str) : WrittenTable :=
  ctasFromStaging (stageWkt fs tname) tname

/-! ### The two pipelines -/

/-- Outcomes of `process_shapefile_upload` relevant to the claims: the
classified locate failures, the empty-feature failure, and success carrying
the resolved table name and the record count. -/
inductive ProcResult
  | errNoShapefile
  | errMultipleShapefiles
  | errNoFeatures
  | success (tableName : Str) (recordCount : Nat)
deriving DecidableEq

/-- Input of one `process_shapefile_upload` invocation: the expanded
archive, the FeatureSet `gpd.read_file` yields for the located entry, the
desired dataset name (already stripped by the handler), the upload-id
fragment for the empty-name fallback, the `information_schema` snapshot of
existing table names, the staged archive's original filename (consulted by
no stage of this function), and whether the driver supports the primary
bulk-copy path (`copy_expert`). -/
structure ProcEnv where
  entries : List ArchiveEntry
  fs : FeatureSet
  desired : Str
  uploadTok : Str
  existing : List Str
  archiveName : Str
  copyExpertOk : Bool
deriving DecidableEq

/-- `process_shapefile_upload` (src/app.py): extract, locate exactly one
top-level `.shp`, derive and uniquify the table name, reject empty feature
sets, normalize the CRS, and write through the primary or the WKT fallback
path. Returns the classified outcome and the created table, if any. -/
def process_shapefile_upload (env : ProcEnv) : ProcResult × Option WrittenTable :=
  match locateProcess env.entries with
  | .error .noShapefile => (.errNoShapefile, none)
  | .error .multipleShapefiles => (.errMultipleShapefiles, none)
  | .ok e =>
      let base := processTableBase env.desired e.name env.uploadTok
      let tname := uniqueName base env.existing
      if env.fs.rowCount = 0 then (.errNoFeatures, none)
      else
        let fs := normalizeProcess env.fs
        let table := if env.copyExpertOk then writePrimary fs tname else writeFallback fs tname
        (.success tname fs.rowCount, some table)

/-- Outcomes of `_ingest_zip_to_postgis` relevant to the claims. -/
inductive ApiResult
  | errNoShp
  | errNoFeatures
  | success (tableName : Str) (featureCount : Nat) (crs : Option Nat)
deriving DecidableEq

/-- `_ingest_zip_to_postgis(zip_path, table_name)` (src/app.py): extract,
take the first `.shp` found by the recursive case-insensitive walk, reject
empty feature sets, default or reproject the CRS to EPSG:4326, rename the
geometry column to `geom`, and bulk-load with replace semantics. The table
name was derived beforehand by `_derive_table_name`. -/
def _ingest_zip_to_postgis (entries : List ArchiveEntry) (fs : FeatureSet)
    (tname : Str) : ApiResult × Option WrittenTable :=
  match locateApi entries with
  | none => (.errNoShp, none)
  | some _ =>
      if fs.rowCount = 0 then (.errNoFeatures, none)
      else
        let fs1 := normalizeApi fs
        let fs2 := { fs1 with geomName := "geom".data }
        (.success tname fs2.rowCount fs2.crs, some (writePrimary fs2 tname))

/-! ### Filesystem effects of the two handlers

The staged archive and the expansion scratch directory are the two
filesystem resources the cleanup claim is about.  Each handler is embedded
as the sequence of filesystem operations it performs on them, per exit
branch; the final state is the fold of that sequence. -/

/-- Filesystem operations on the two staged resources. -/
inductive FsOp
  | saveArchive
  | makeScratch
  | removeScratch
  | removeArchive
deriving DecidableEq

/-- Which of the two staged resources currently exist. -/
structure FsState where
  archiveExists : Bool
  scratchExists : Bool
deriving DecidableEq

def FsState.apply : FsState → FsOp → FsState
  | s, .saveArchive => { s with archiveExists := true }
  | s, .makeScratch => { s with scratchExists := true }
  | s, .removeScratch => { s with scratchExists := false }
  | s, .removeArchive => { s with archiveExists := false }

/-- Run a sequence of filesystem operations from the empty state. -/
def runOps (ops : List FsOp) : FsState :=
  ops.foldl FsState.apply { archiveExists := false, scratchExists := false }

/-- Exit branches of a handler: normal success, a classified failure
reported by the pipeline, or an exception caught by the handler's
`except Exception` clause. -/
inductive HandlerBranch
  | ok
  | failed
  | raised
deriving DecidableEq

/-- Scratch-directory operations of one `process_shapefile_upload` or
`_ingest_zip_to_postgis` call: `tempfile.TemporaryDirectory()` is a context
manager, so the scratch directory is removed on every exit from the
`with` block, including an exception unwinding out of its body. -/
def scratchDirOps : List FsOp := [.makeScratch, .removeScratch]

/-- Filesystem operations of the `/upload` handler `upload_shapefile` after
the extension check: `file.save(filepath)`, the pipeline run, and then
`os.remove(filepath)` in the success branch, the classified-failure branch
(`if os.path.exists(filepath): os.remove(filepath)`) and the exception
branch alike. -/
def uploadShapefileOps : HandlerBranch → List FsOp
  | .ok => .saveArchive :: scratchDirOps ++ [.removeArchive]
  | .failed => .saveArchive :: scratchDirOps ++ [.removeArchive]
  | .raised => .saveArchive :: scratchDirOps ++ [.removeArchive]

/-- Filesystem operations of the `/api/upload` handler `api_upload`:
`file.save(save_path)` and the ingest run. No branch of this handler removes
`save_path` — neither the success return, nor the `except` clauses that turn
ingest errors into JSON error responses. -/
def apiUploadOps : HandlerBranch → List FsOp
  | .ok => .saveArchive :: scratchDirOps
  | .failed => .saveArchive :: scratchDirOps
  | .raised => .saveArchive :: scratchDirOps

/-! ### Helper lemmas shared by the claim theorems -/

theorem find?_eq_of_filter_eq_singleton {α : Type} (p : α → Bool) :
    ∀ (l : List α) (e : α), l.filter p = [e] → l.find? p = some e := by
  intro l
  induction l with
  | nil => intro e h; simp at h
  | cons a l ih =>
    intro e h
    by_cases hp : p a = true
    · rw [List.filter_cons_of_pos hp] at h
      injection h with h1 _
      rw [List.find?_cons_of_pos _ hp, h1]
    · rw [List.filter_cons_of_neg hp] at h
      rw [List.find?_cons_of_neg _ hp]
      exact ih e h

theorem zipWith_snoc_dropLast :
    ∀ (rs : List (List Str)) (ws : List Str), rs.length = ws.length →
      (List.zipWith (fun r w => r ++ [w]) rs ws).map List.dropLast = rs := by
  intro rs
  induction rs with
  | nil => intro ws h; simp
  | cons r rs ih =>
    intro ws h
    cases ws with
    | nil => simp at h
    | cons w ws =>
      simp only [List.zipWith_cons_cons, List.map_cons, List.dropLast_concat]
      rw [ih ws (by simpa using h)]

theorem zipWith_snoc_getLastD :
    ∀ (rs : List (List Str)) (ws : List Str), rs.length = ws.length →
      (List.zipWith (fun r w => r ++ [w]) rs ws).map (fun r => r.getLastD []) = ws := by
  intro rs
  induction rs with
  | nil =>
    intro ws h
    cases ws with
    | nil => simp
    | cons w ws => simp at h
  | cons r rs ih =>
    intro ws h
    cases ws with
    | nil => simp at h
    | cons w ws =>
      simp only [List.zipWith_cons_cons, List.map_cons, List.getLastD_concat]
      rw [ih ws (by simpa using h)]

theorem sanitize_name_ne_nil {name : Str} (h : name ≠ []) : sanitize_name name ≠ [] := by
  have hcl : cleanedOf name ≠ [] := by
    intro hcon
    exact h (by simpa [cleanedOf, pyLower, List.map_eq_nil_iff] using hcon)
  rcases hs : cleanedOf name with _ | ⟨c, rest⟩
  · exact absurd hs hcl
  · simp only [sanitize_name, hs]
    by_cases hc : c.isAlpha = true
    · rw [if_pos hc]
      simp
    · rw [if_neg hc]
      simp

theorem apiSafe2_head_not_digit (preferred original : Str) (d : Char) (rest : Str)
    (h : apiSafe2 preferred original = d :: rest) : d.isDigit = false := by
  rcases hs : apiSafe preferred original with _ | ⟨c, r⟩
  · simp [apiSafe2, hs] at h
  · simp only [apiSafe2, hs] at h
    by_cases hc : c.isDigit = true
    · rw [if_pos hc] at h
      have ht : "t_".data ++ (c :: r) = 't' :: ('_' :: (c :: r)) := rfl
      rw [ht] at h
      injection h with h1 _
      rw [← h1]
      decide
    · rw [if_neg hc] at h
      injection h with h1 _
      rw [← h1]
      exact Bool.eq_false_iff.mpr hc

/-! ### The claims -/

/-- C1 counterexample: the `/api/upload` handler never removes the staged
archive it wrote to the upload folder — after a successful pipeline run the
archive file still exists on the filesystem, refuting the cleanup claim for
that entry point. -/
theorem c1_counterexample :
    (runOps (apiUploadOps .ok)).archiveExists = true ∧
    (runOps (apiUploadOps .failed)).archiveExists = true := by
  exact ⟨rfl, rfl⟩

/-- C1 (amended): after any outcome of the `/upload` handler both the staged
archive and the scratch directory are gone; on the `/api/upload` handler only
the scratch directory is removed (by the `TemporaryDirectory` context
manager) while the staged archive remains. -/
theorem c1_cleanup_amended :
    ∀ b : HandlerBranch,
      runOps (uploadShapefileOps b) = { archiveExists := false, scratchExists := false } ∧
      (runOps (apiUploadOps b)).scratchExists = false := by
  intro b
  cases b <;> exact ⟨rfl, rfl⟩

/-- C1 witness: the amended cleanup facts evaluated on the success branch. -/
theorem c1_cleanup_witness :
    runOps (uploadShapefileOps .ok) = { archiveExists := false, scratchExists := false } ∧
    (runOps (apiUploadOps .ok)).scratchExists = false :=
  c1_cleanup_amended .ok

/-- C2 counterexample: an archive holding two `.shp` entries. Through the
`/api/upload` path the locate step silently picks the first one and the
ingest succeeds, creating a table — there is no `MultipleShapefiles`
failure. Moreover, through the `/upload` path two `.shp` entries nested in a
subdirectory yield `NoShapefile`, not `MultipleShapefiles`. -/
theorem c2_counterexample :
    locateApi [⟨[], "a.shp".data⟩, ⟨[], "b.shp".data⟩] = some ⟨[], "a.shp".data⟩ ∧
    (_ingest_zip_to_postgis [⟨[], "a.shp".data⟩, ⟨[], "b.shp".data⟩]
        { attrCols := [], attrRows := [[]], geoms := ["POINT(0 0)".data],
          geomName := "geometry".data, crs := some 4326, reprojOk := true }
        "t".data).2.isSome = true ∧
    locateProcess [⟨["d".data], "a.shp".data⟩, ⟨["d".data], "b.shp".data⟩] =
      .error .noShapefile := by
  refine ⟨rfl, rfl, rfl⟩

/-- C2 (amended): an archive whose expansion holds two or more top-level
`.shp` entries fails `MultipleShapefiles` on the `/upload` path and creates
no table; the `/api/upload` path instead silently ingests the first `.shp`
found by its walk. -/
theorem c2_multiple_shapefiles_amended (env : ProcEnv)
    (h : 2 ≤ (topLevelShps env.entries).length) :
    process_shapefile_upload env = (.errMultipleShapefiles, none) := by
  have hloc : locateProcess env.entries = .error .multipleShapefiles := by
    unfold locateProcess
    rcases hls : topLevelShps env.entries with _ | ⟨a, _ | ⟨b, l⟩⟩
    · rw [hls] at h
      simp at h
    · rw [hls] at h
      simp at h
    · rfl
  unfold process_shapefile_upload
  rw [hloc]

/-- C2 witness: the amended statement applied to a concrete archive with two
top-level shapefile entries. -/
theorem c2_multiple_shapefiles_witness :
    2 ≤ (topLevelShps [⟨[], "a.shp".data⟩, ⟨[], "b.shp".data⟩]).length ∧
    process_shapefile_upload
      { entries := [⟨[], "a.shp".data⟩, ⟨[], "b.shp".data⟩],
        fs := { attrCols := [], attrRows := [[]], geoms := ["POINT(0 0)".data],
                geomName := "geometry".data, crs := some 4326, reprojOk := true },
        desired := [], uploadTok := "deadbeef".data, existing := [],
        archiveName := "two.zip".data, copyExpertOk := true } =
      (.errMultipleShapefiles, none) :=
  ⟨by decide, c2_multiple_shapefiles_amended _ (by decide)⟩

/-- C3 counterexample: an archive whose single `.shp` entry sits in a
subdirectory (counted case-insensitively, there is exactly one) is not found
by the `/upload` locate stage: it reports `NoShapefile` instead of returning
the file; likewise a single top-level `ROADS.SHP` is missed because the
match is case-sensitive. -/
theorem c3_counterexample :
    (List.filter (fun e => strEndsWith (pyLower e.name) ".shp".data)
        [ArchiveEntry.mk ["data".data] "roads.shp".data]).length = 1 ∧
    locateProcess [ArchiveEntry.mk ["data".data] "roads.shp".data] = .error .noShapefile ∧
    locateProcess [ArchiveEntry.mk [] "ROADS.SHP".data] = .error .noShapefile := by
  refine ⟨rfl, rfl, rfl⟩

/-- C3 (amended): the `/upload` locate stage considers only top-level entries
of the expanded archive, matched case-sensitively: with exactly one such
entry it returns that file; with zero such entries it fails `NoShapefile`.
The `/api` locator is the recursive, case-insensitive one: it returns a
match, and when the case-insensitive matches are exactly one entry, it
returns that entry regardless of nesting depth. -/
theorem c3_locate_amended (entries : List ArchiveEntry) :
    (∀ e, topLevelShps entries = [e] → locateProcess entries = .ok e) ∧
    (topLevelShps entries = [] → locateProcess entries = .error .noShapefile) ∧
    (∀ e, locateApi entries = some e →
        strEndsWith (pyLower e.name) ".shp".data = true) ∧
    (∀ e, entries.filter (fun x => strEndsWith (pyLower x.name) ".shp".data) = [e] →
        locateApi entries = some e) := by
  refine ⟨?_, ?_, ?_, ?_⟩
  · intro e h
    unfold locateProcess
    rw [h]
  · intro h
    unfold locateProcess
    rw [h]
  · intro e h
    have h' : entries.find? (fun x => strEndsWith (pyLower x.name) ".shp".data) = some e := h
    have h2 := List.find?_some h'
    exact h2
  · intro e h
    exact find?_eq_of_filter_eq_singleton _ entries e h

/-- C3 witness: the amended locate facts applied to concrete archives. -/
theorem c3_locate_witness :
    locateProcess [ArchiveEntry.mk [] "roads.shp".data] = .ok ⟨[], "roads.shp".data⟩ ∧
    locateApi [ArchiveEntry.mk ["sub".data] "roads.shp".data] =
      some ⟨["sub".data], "roads.shp".data⟩ :=
  ⟨(c3_locate_amended _).1 _ (by decide),
   (c3_locate_amended _).2.2.2 _ (by decide)⟩

/-- C4 counterexample: with `existingNames = {"roads", "roads_1"}` the base
input `"Roads!"` sanitizes to `"roads_"` (the `'!'` becomes `'_'`), which is
not in the snapshot, so the probe returns `"roads_"` — not `"roads_2"` as
the claim states. -/
theorem c4_counterexample :
    sanitize_name "Roads!".data = "roads_".data ∧
    uniqueName (sanitize_name "Roads!".data) ["roads".data, "roads_1".data] =
      "roads_".data ∧
    uniqueName (sanitize_name "Roads!".data) ["roads".data, "roads_1".data] ≠
      "roads_2".data := by
  refine ⟨by decide, by decide, by decide⟩

/-- C4 (amended): the probe inspects `base`, `base_1`, `base_2`, … in order
and returns the first candidate not in the snapshot; with the snapshot
`{"roads", "roads_1"}`, the sanitized base `"roads"` yields `"roads_2"`,
while the base input `"Roads!"` sanitizes to `"roads_"` and yields
`"roads_"`. -/
theorem c4_collision_resolution_amended :
    (∀ (base : Str) (existing : List Str),
        ∃ k, uniqueName base existing = candidateAt base k ∧
          candidateAt base k ∉ existing ∧
          ∀ j, j < k → candidateAt base j ∈ existing) ∧
    uniqueName "roads".data ["roads".data, "roads_1".data] = "roads_2".data ∧
    uniqueName (sanitize_name "Roads!".data) ["roads".data, "roads_1".data] =
      "roads_".data :=
  ⟨uniqueName_first_free, by decide, by decide⟩

/-- C4 witness: the first-free-candidate fact instantiated at a concrete
base and snapshot. -/
theorem c4_collision_resolution_witness :
    ∃ k, uniqueName "t".data ["t".data] = candidateAt "t".data k ∧
      candidateAt "t".data k ∉ ["t".data] ∧
      ∀ j, j < k → candidateAt "t".data j ∈ ["t".data] :=
  c4_collision_resolution_amended.1 "t".data ["t".data]

/-- C5: sanitization replaces every non-alphanumeric character by `'_'` on
the lowercased input (adding at most an alphabetic prefix), a digit-leading
cleaned string gets the `"table_"` prefix, no produced identifier begins
with a digit (on either entry point's sanitizer), and `"2024_survey"` maps
to `"table_2024_survey"` on the `/upload` path and to the alpha-prefixed
`"t_2024_survey"` on the `/api` path. -/
theorem c5_sanitization_properties :
    (∀ name : Str, sanitize_name name = cleanedOf name ∨
        sanitize_name name = "table_".data ++ cleanedOf name) ∧
    (∀ (name : Str) (d : Char) (rest : Str), cleanedOf name = d :: rest →
        d.isDigit = true → sanitize_name name = "table_".data ++ (d :: rest)) ∧
    (∀ (name : Str) (d : Char) (rest : Str), sanitize_name name = d :: rest →
        d.isDigit = false) ∧
    (∀ (preferred original uuidTok : Str) (d : Char) (rest : Str),
        _derive_table_name preferred original uuidTok = d :: rest →
        d.isDigit = false) ∧
    (∀ preferred original uuidTok : Str, apiBase preferred original ≠ [] →
        ∃ q : Str, _derive_table_name preferred original uuidTok =
          pyLower (q ++ apiSafe preferred original) ∧ (q = [] ∨ q = "t_".data)) ∧
    sanitize_name "2024_survey".data = "table_2024_survey".data ∧
    _derive_table_name [] "2024_survey.zip".data "abcd1234".data =
      "t_2024_survey".data := by
  refine ⟨?_, ?_, ?_, ?_, ?_, by decide, by decide⟩
  · intro name
    rcases hcl : cleanedOf name with _ | ⟨c, rest⟩
    · left
      simp [sanitize_name, hcl]
    · by_cases ha : c.isAlpha = true
      · left
        simp only [sanitize_name, hcl, if_pos ha]
      · right
        simp only [sanitize_name, hcl, if_neg ha]
  · intro name d rest h hd
    have ha : d.isAlpha = false := by
      cases hda : d.isAlpha
      · rfl
      · rw [char_isAlpha_not_isDigit hda] at hd
        simp at hd
    simp only [sanitize_name, h]
    rw [if_neg (by simp [ha])]
  · intro name d rest h
    rcases hcl : cleanedOf name with _ | ⟨c, rest'⟩
    · simp [sanitize_name, hcl] at h
    · simp only [sanitize_name, hcl] at h
      by_cases ha : c.isAlpha = true
      · rw [if_pos ha] at h
        injection h with h1 _
        rw [← h1]
        exact char_isAlpha_not_isDigit ha
      · rw [if_neg ha] at h
        have ht : "table_".data ++ (c :: rest') = 't' :: ("able_".data ++ (c :: rest')) := rfl
        rw [ht] at h
        injection h with h1 _
        rw [← h1]
        decide
  · intro preferred original uuidTok d rest h
    simp only [_derive_table_name] at h
    by_cases hl : pyLower (apiSafe2 preferred original) = []
    · rw [if_pos hl] at h
      have ht : "t_".data ++ uuidTok = 't' :: ('_' :: uuidTok) := rfl
      rw [ht] at h
      injection h with h1 _
      rw [← h1]
      decide
    · rw [if_neg hl] at h
      rcases hs : apiSafe2 preferred original with _ | ⟨c, r⟩
      · rw [hs] at h
        simp [pyLower] at h
      · rw [hs] at h
        have hplc : pyLower (c :: r) = Char.toLower c :: pyLower r := rfl
        rw [hplc] at h
        injection h with h1 _
        rw [← h1, char_toLower_isDigit]
        exact apiSafe2_head_not_digit _ _ _ _ hs
  · intro preferred original uuidTok hb
    have hsafe : apiSafe preferred original ≠ [] := fun hcon =>
      hb (List.map_eq_nil_iff.mp hcon)
    rcases hs : apiSafe preferred original with _ | ⟨c, r⟩
    · exact absurd hs hsafe
    · by_cases hc : c.isDigit = true
      · refine ⟨"t_".data, ?_, Or.inr rfl⟩
        have h2 : apiSafe2 preferred original = "t_".data ++ (c :: r) := by
          simp only [apiSafe2, hs, if_pos hc]
        have hne : pyLower (apiSafe2 preferred original) ≠ [] := by
          rw [h2]
          simp [pyLower]
        simp only [_derive_table_name, if_neg hne]
        rw [h2]
      · refine ⟨[], ?_, Or.inl rfl⟩
        have h2 : apiSafe2 preferred original = c :: r := by
          simp only [apiSafe2, hs, if_neg hc]
        have hne : pyLower (apiSafe2 preferred original) ≠ [] := by
          rw [h2]
          simp [pyLower]
        simp only [_derive_table_name, if_neg hne]
        rw [h2]
        rfl

/-- C5 witness: the head-is-not-a-digit facts applied to concrete inputs. -/
theorem c5_sanitization_witness :
    ('t' : Char).isDigit = false ∧ ('x' : Char).isDigit = false :=
  ⟨c5_sanitization_properties.2.2.1 "2024_survey".data 't' "able_2024_survey".data
      (by decide),
   c5_sanitization_properties.2.2.2.1 "x!".data "file.zip".data "ab".data 'x' "_".data
      (by decide)⟩

/-- C6 counterexample: a FeatureSet with no declared CRS is left without a
CRS by the `/upload` path's normalization — after `normalize` its CRS is
still `none`, not EPSG:4326. -/
theorem c6_counterexample :
    (normalizeProcess
      { attrCols := [], attrRows := [[]], geoms := ["POINT(0 0)".data],
        geomName := "geometry".data, crs := none, reprojOk := true }).crs = none := by
  rfl

/-- C6 (amended): a FeatureSet with no declared CRS is assigned EPSG:4326 by
the `/api/upload` path's normalization; the `/upload` path's normalization
leaves the CRS undeclared, printing a warning and importing as-is. -/
theorem c6_crs_default_amended (fs : FeatureSet) (h : fs.crs = none) :
    (normalizeApi fs).crs = some 4326 ∧ (normalizeProcess fs).crs = none := by
  constructor
  · simp [normalizeApi, h]
  · simp [normalizeProcess, h]

/-- C6 witness: the amended CRS facts applied to a concrete FeatureSet with
no declared CRS. -/
theorem c6_crs_default_witness :
    (normalizeApi
      { attrCols := [], attrRows := [[]], geoms := ["POINT(1 2)".data],
        geomName := "geometry".data, crs := none, reprojOk := true }).crs = some 4326 ∧
    (normalizeProcess
      { attrCols := [], attrRows := [[]], geoms := ["POINT(1 2)".data],
        geomName := "geometry".data, crs := none, reprojOk := true }).crs = none :=
  c6_crs_default_amended _ rfl

/-- C7 counterexample: on the `/upload` path with no user-supplied name, an
archive named `parks.zip` whose shapefile entry is `boundary.shp` produces
the table name `"boundary"`: the base is the `.shp` entry's filename, not
the uploaded archive's base filename `"parks"`. -/
theorem c7_counterexample :
    (process_shapefile_upload
      { entries := [⟨[], "boundary.shp".data⟩],
        fs := { attrCols := [], attrRows := [[]], geoms := ["POINT(0 0)".data],
                geomName := "geometry".data, crs := some 4326, reprojOk := true },
        desired := [], uploadTok := "deadbeef".data, existing := [],
        archiveName := "parks.zip".data, copyExpertOk := true }).1 =
      .success "boundary".data 1 ∧
    sanitize_name (splitextBase "parks.zip".data) = "parks".data ∧
    "boundary".data ≠ "parks".data := by
  refine ⟨by decide, by decide, by decide⟩

/-- C7 (amended): on the `/api` path the base is the trimmed preferred name
when non-empty, else the uploaded archive's filename without its extension;
on the `/upload` path a non-empty preferred name also wins, but the fallback
base is the located `.shp` entry's filename without extension — the
archive's filename is not consulted. -/
theorem c7_base_selection_amended :
    (∀ preferred original : Str, preferred ≠ [] → pyStrip preferred = preferred →
        apiBase preferred original = preferred) ∧
    (∀ original : Str, apiBase [] original = pyStrip (splitextBase original)) ∧
    (∀ desired shpFile tok : Str, desired ≠ [] →
        processTableBase desired shpFile tok = sanitize_name desired) ∧
    (∀ shpFile tok : Str, processTableBase [] shpFile tok =
        if sanitize_name (splitextBase shpFile) = [] then "table_".data ++ tok
        else sanitize_name (splitextBase shpFile)) := by
  refine ⟨?_, ?_, ?_, ?_⟩
  · intro preferred original hne hstrip
    simp only [apiBase, if_neg hne]
    exact hstrip
  · intro original
    simp [apiBase]
  · intro desired shpFile tok hd
    have hs := sanitize_name_ne_nil hd
    simp only [processTableBase, if_neg hd, if_neg hs]
  · intro shpFile tok
    rfl

/-- C7 witness: the base-selection facts applied to concrete names. -/
theorem c7_base_selection_witness :
    apiBase "parks".data "roads.zip".data = "parks".data ∧
    processTableBase "Parks".data "boundary.shp".data "ab".data =
      sanitize_name "Parks".data :=
  ⟨c7_base_selection_amended.1 "parks".data "roads.zip".data (by decide) (by decide),
   c7_base_selection_amended.2.2.1 "Parks".data "boundary.shp".data "ab".data (by decide)⟩

/-- C8 counterexample: a FeatureSet that reaches the write stage still
carrying CRS EPSG:3857 (possible, because normalization degrades to
continue-unnormalized on reprojection failure) is written with SRID 3857 by
the primary path but with SRID 4326 by the WKT fallback — the two outputs
are distinguishable. -/
theorem c8_counterexample :
    (writePrimary
      { attrCols := ["n".data], attrRows := [["a".data]], geoms := ["POINT(0 0)".data],
        geomName := "geometry".data, crs := some 3857, reprojOk := false }
      "t".data).geomSRID = some 3857 ∧
    (writeFallback
      { attrCols := ["n".data], attrRows := [["a".data]], geoms := ["POINT(0 0)".data],
        geomName := "geometry".data, crs := some 3857, reprojOk := false }
      "t".data).geomSRID = some 4326 ∧
    writeFallback
      { attrCols := ["n".data], attrRows := [["a".data]], geoms := ["POINT(0 0)".data],
        geomName := "geometry".data, crs := some 3857, reprojOk := false }
      "t".data ≠
    writePrimary
      { attrCols := ["n".data], attrRows := [["a".data]], geoms := ["POINT(0 0)".data],
        geomName := "geometry".data, crs := some 3857, reprojOk := false }
      "t".data := by
  refine ⟨by decide, by decide, by decide⟩

/-- C8 (amended): for every FeatureSet whose geometry column carries the
standard name `geometry` and whose CRS is EPSG:4326 (the normal situation
after normalization), the WKT-staging fallback — stage attributes plus WKT,
convert via create-table-as-select into a typed geometry column tagged
EPSG:4326, drop the staging table — produces exactly the table the primary
native bulk-load path produces; when the carried CRS differs from 4326 the
two paths differ in the geometry column's SRID. -/
theorem c8_fallback_refines_primary (fs : FeatureSet) (tname : Str)
    (hg : fs.geomName = "geometry".data) (hc : fs.crs = some 4326)
    (hlen : fs.attrRows.length = fs.geoms.length) :
    writeFallback fs tname = writePrimary fs tname := by
  simp only [writeFallback, ctasFromStaging, stageWkt, writePrimary, WrittenTable.mk.injEq]
  refine ⟨trivial, List.dropLast_concat, ?_, hg.symm, hc.symm, ?_⟩
  · exact zipWith_snoc_dropLast fs.attrRows fs.geoms hlen
  · exact zipWith_snoc_getLastD fs.attrRows fs.geoms hlen

/-- C8 witness: the refinement applied to a concrete normalized FeatureSet. -/
theorem c8_fallback_refines_witness :
    writeFallback
      { attrCols := ["n".data], attrRows := [["a".data]], geoms := ["POINT(0 0)".data],
        geomName := "geometry".data, crs := some 4326, reprojOk := true }
      "t".data =
    writePrimary
      { attrCols := ["n".data], attrRows := [["a".data]], geoms := ["POINT(0 0)".data],
        geomName := "geometry".data, crs := some 4326, reprojOk := true }
      "t".data :=
  c8_fallback_refines_primary _ _ rfl rfl rfl

/-- C9: a FeatureSet with zero rows makes the pipeline fail `NoFeatures`
before any write, and no table is created — on both entry points. -/
theorem c9_zero_rows_no_features :
    (∀ env : ProcEnv, (∃ e, locateProcess env.entries = Except.ok e) →
        env.fs.rowCount = 0 →
        process_shapefile_upload env = (.errNoFeatures, none)) ∧
    (∀ (entries : List ArchiveEntry) (fs : FeatureSet) (tname : Str),
        (locateApi entries).isSome = true → fs.rowCount = 0 →
        _ingest_zip_to_postgis entries fs tname = (.errNoFeatures, none)) := by
  constructor
  · rintro env ⟨e, he⟩ hz
    simp [process_shapefile_upload, he, hz]
  · intro entries fs tname hs hz
    rcases Option.isSome_iff_exists.mp hs with ⟨e, he⟩
    simp [_ingest_zip_to_postgis, he, hz]

/-- C9 witness: both zero-row failures evaluated on a concrete archive with
one (empty) shapefile. -/
theorem c9_zero_rows_witness :
    process_shapefile_upload
      { entries := [⟨[], "empty.shp".data⟩],
        fs := { attrCols := [], attrRows := [], geoms := [],
                geomName := "geometry".data, crs := some 4326, reprojOk := true },
        desired := [], uploadTok := "deadbeef".data, existing := [],
        archiveName := "empty.zip".data, copyExpertOk := true } =
      (.errNoFeatures, none) ∧
    _ingest_zip_to_postgis [⟨[], "empty.shp".data⟩]
      { attrCols := [], attrRows := [], geoms := [],
        geomName := "geometry".data, crs := some 4326, reprojOk := true }
      "t".data = (.errNoFeatures, none) :=
  ⟨c9_zero_rows_no_features.1 _ ⟨⟨[], "empty.shp".data⟩, rfl⟩ rfl,
   c9_zero_rows_no_features.2 _ _ _ rfl rfl⟩

/-- C10: for every non-empty starting candidate and every snapshot of
existing names, the suffix-probing loop terminates — with the fuel chosen in
`uniqueName` it always exits through its guard — and the identifier it
returns is not a member of the snapshot. -/
theorem c10_probe_fresh (base : Str) (existing : List Str) (_hbase : base ≠ []) :
    uniqueName base existing ∉ existing :=
  uniqueName_not_mem base existing

/-- C10 witness: freshness evaluated at a concrete base that collides with
the snapshot. -/
theorem c10_probe_fresh_witness :
    "t".data ≠ ([] : Str) ∧ uniqueName "t".data ["t".data] ∉ ["t".data] :=
  ⟨by decide, c10_probe_fresh "t".data ["t".data] (by decide)⟩

end ShapefilePipeline
